import Mathlib

/-!
Verification of the merino SOCKS5 proxy server (src/lib.rs, src/protocol.rs,
src/error.rs) against its natural-language specification.

The Rust source is shallowly embedded: enums become inductive types, byte
values become `Nat`, wire strings become `List Nat`, the per-connection
`TcpStream` becomes an explicit `ConnState` (unread input bytes, the write
events performed so far, and whether the stream has been shut down), and
fallible operations return `Except`.  Platform-dependent behaviour
(native endianness of `u16::from_ne_bytes`, UTF-8 validation, DNS
resolution and the upstream TCP connect) is an explicit parameter.
-/

namespace Merino

/-! ## protocol.rs -/

/-- `ResponseCode`: Section 6 Replies, reply field values (protocol.rs). -/
inductive ResponseCode
  | Success
  | Failure
  | RuleFailure
  | NetworkUnreachable
  | HostUnreachable
  | ConnectionRefused
  | TtlExpired
  | CommandNotSupported
  | AddrTypeNotSupported
deriving DecidableEq

/-- The discriminant values of the `ResponseCode` enum (`r as u8`). -/
def ResponseCode.code : ResponseCode → Nat
  | .Success => 0x00
  | .Failure => 0x01
  | .RuleFailure => 0x02
  | .NetworkUnreachable => 0x03
  | .HostUnreachable => 0x04
  | .ConnectionRefused => 0x05
  | .TtlExpired => 0x06
  | .CommandNotSupported => 0x07
  | .AddrTypeNotSupported => 0x08

/-- `impl fmt::Display for ResponseCode` (protocol.rs). -/
def ResponseCode.display : ResponseCode → String
  | .Success => "succeeded"
  | .Failure => "general SOCKS server failure"
  | .RuleFailure => "connection now allowed by ruleset"
  | .NetworkUnreachable => "Network unreachable"
  | .HostUnreachable => "Host unreachable"
  | .ConnectionRefused => "Connection refused"
  | .TtlExpired => "TTL expired"
  | .CommandNotSupported => "Command not supported"
  | .AddrTypeNotSupported => "Address type not supported"

/-- `AuthMethods`: client authentication methods (protocol.rs). -/
inductive AuthMethods
  | NoAuth
  | GssApi
  | UserPass
  | IANAMethod (c : Nat)
  | Private (c : Nat)
  | NoMethods
deriving DecidableEq

/-- `AuthMethods::code` (protocol.rs). -/
def AuthMethods.code : AuthMethods → Nat
  | .NoAuth => 0x00
  | .GssApi => 0x01
  | .UserPass => 0x02
  | .IANAMethod c => c
  | .Private c => c
  | .NoMethods => 0xff

/-- `impl From<u8> for AuthMethods` (protocol.rs).  The match arms
`0x03..=0x7F => IANAMethod`, `0x80..=0xFE => Private` and, as written in
the source, `0xFF => NoAuth`. -/
def AuthMethods.fromU8 (code : Nat) : AuthMethods :=
  if code = 0x00 then .NoAuth
  else if code = 0x01 then .GssApi
  else if code = 0x02 then .UserPass
  else if code ≤ 0x7F then .IANAMethod code
  else if code ≤ 0xFE then .Private code
  else .NoAuth

/-- `AddrType` (ATYP, protocol.rs). -/
inductive AddrType
  | V4
  | Domain
  | V6
deriving DecidableEq

/-- `impl TryFrom<u8> for AddrType` (protocol.rs); `Option` stands for
`Result<_, TryFromU8Error>`. -/
def AddrType.tryFrom (n : Nat) : Option AddrType :=
  if n = 1 then some .V4
  else if n = 3 then some .Domain
  else if n = 4 then some .V6
  else none

/-- Host endianness: `u16::from_ne_bytes` composes in native byte order. -/
inductive Endian
  | big
  | little
deriving DecidableEq

/-- `u16::from_ne_bytes([x, y])` on a host of endianness `e`. -/
def u16FromNeBytes (e : Endian) (x y : Nat) : Nat :=
  match e with
  | .big => x * 256 + y
  | .little => y * 256 + x

/-- `slice::chunks_exact(2)`: the complete 2-element chunks, a trailing
odd element is dropped. -/
def chunksExact2 : List Nat → List (Nat × Nat)
  | x :: y :: rest => (x, y) :: chunksExact2 rest
  | _ => []

/-- A resolved `std::net::SocketAddr`.  A `v4` holds its four address
octets; a `v6` holds the eight 16-bit groups passed to `Ipv6Addr::new`. -/
inductive SocketAddr
  | v4 (octets : List Nat) (port : Nat)
  | v6 (groups : List Nat) (port : Nat)
deriving DecidableEq

/-- The address octets of a resolved socket address.  `Ipv4Addr` stores
its four octets directly; `Ipv6Addr::new` stores each 16-bit group in
big-endian (network) byte order. -/
def SocketAddr.addrOctets : SocketAddr → List Nat
  | .v4 octets _ => octets
  | .v6 groups _ => (groups.map fun g => [g / 256, g % 256]).flatten

/-- The port of a resolved socket address. -/
def SocketAddr.port : SocketAddr → Nat
  | .v4 _ p => p
  | .v6 _ p => p

/-- `impl ToSocketAddrs for Address` (protocol.rs).  `e` is the host
endianness used by `u16::from_ne_bytes`; `resolve` is the host OS
resolver consulted for `Domain` addresses (`format!` + `to_socket_addrs`),
returning the OS error message on failure. -/
def Address.toSocketAddrs (e : Endian)
    (resolve : List Nat → Nat → Except String (List SocketAddr))
    (ty : AddrType) (data : List Nat) (port : Nat) :
    Except String (List SocketAddr) :=
  match ty with
  | .V6 =>
    let addr := (chunksExact2 data).map fun c => u16FromNeBytes e c.1 c.2
    Except.ok [SocketAddr.v6 addr port]
  | .V4 =>
    Except.ok [SocketAddr.v4 (data.take 4) port]
  | .Domain => resolve data port

/-! ## The connect-failure classifier (lib.rs, `Merino::serve`) -/

/-- Substring test on character lists (`str::contains` with a literal
pattern). -/
def charsContain (hay pat : List Char) : Bool :=
  decide (pat <:+: hay)

/-- `str::contains` as used by `Merino::serve` on the formatted error. -/
def containsSub (hay pat : String) : Bool :=
  charsContain hay.toList pat.toList

/-- The reply-code classifier in `Merino::serve` (lib.rs lines 79-93):
substring matching on the formatted error text. -/
def classify (errorText : String) : ResponseCode :=
  if containsSub errorText "Host" then .HostUnreachable
  else if containsSub errorText "Network" then .NetworkUnreachable
  else if containsSub errorText "ttl" then .TtlExpired
  else .Failure

/-! ## error.rs -/

/-- The `Error` enum of error.rs.  `Io` and `Utf8` carry the formatted
text of their wrapped source error. -/
inductive SError
  | Io (msg : String)
  | Utf8 (msg : String)
  | Socks5 (code : ResponseCode)
deriving DecidableEq

/-- The snafu `display` attributes of error.rs, as used by
`format!` in `Merino::serve`. -/
def SError.display : SError → String
  | .Io msg => "Io Error: " ++ msg
  | .Utf8 msg => "Utf8Parse Error: " ++ msg
  | .Socks5 c => "SOCKS5 Server Error: " ++ c.display

/-! ## lib.rs -/

/-- `SOCKS_VERSION` (lib.rs). -/
def SOCKS_VERSION : Nat := 0x05

/-- `RESERVED` (lib.rs). -/
def RESERVED : Nat := 0x00

/-- `User` (lib.rs): username and password strings, compared by `PartialEq`
(octet-exact), here kept as their UTF-8 bytes. -/
structure User where
  username : List Nat
  password : List Nat
deriving DecidableEq

/-- `SockCommand` (lib.rs). -/
inductive SockCommand
  | Connect
  | Bind
  | UdpAssosiate
deriving DecidableEq

/-- `SockCommand::from` (lib.rs). -/
def SockCommand.fromNat (n : Nat) : Option SockCommand :=
  if n = 1 then some .Connect
  else if n = 2 then some .Bind
  else if n = 3 then some .UdpAssosiate
  else none

/-- Which `write_all` call site of lib.rs produced a write event. -/
inductive Tag
  | MethodSelection
  | AuthReply
  | SuccessReply
  | ErrorReply
deriving DecidableEq

/-- One `write_all` performed on the client stream: the call site, the
bytes, and whether the write succeeded (it fails once the stream has been
shut down, so the bytes are never delivered to the client). -/
structure WriteEvent where
  tag : Tag
  bytes : List Nat
  delivered : Bool
deriving DecidableEq

/-- The client `TcpStream` of one session: the bytes the client sent that
the server has not yet read, the writes the server has performed, and
whether `shutdown(Shutdown::Both)` has been called. -/
structure ConnState where
  input : List Nat
  events : List WriteEvent
  isShutdown : Bool
deriving DecidableEq

/-- The immutable per-server data cloned into each `SOCKClient`:
`users` and `auth_methods`. -/
structure Config where
  users : List User
  authMethods : List AuthMethods

/-- The host environment a session runs against: UTF-8 validation
(`String::from_utf8` succeeds or not), the upstream
`TcpStream::connect` outcome (OS error text on failure), and the OS
resolver for `Domain` addresses. -/
structure Oracle where
  utf8Ok : List Nat → Bool
  connect : List SocketAddr → Except String Unit
  resolveDomain : List Nat → Nat → Except String (List SocketAddr)

/-- `read_exact` on the client stream: errors once the stream is shut
down (read returns 0) or when the client sent fewer bytes than asked. -/
def readExact (n : Nat) (s : ConnState) : Except SError (List Nat) × ConnState :=
  if s.isShutdown then
    (Except.error (SError.Io "read from closed stream"), s)
  else if n ≤ s.input.length then
    (Except.ok (s.input.take n), { s with input := s.input.drop n })
  else
    (Except.error (SError.Io "failed to fill whole buffer"), s)

/-- `write_all` on the client stream: appends a write event; the write
fails (and is not delivered) once the stream has been shut down. -/
def writeAll (t : Tag) (bs : List Nat) (s : ConnState) :
    Except SError Unit × ConnState :=
  if s.isShutdown then
    (Except.error (SError.Io "broken pipe"),
      { s with events := s.events ++ [⟨t, bs, false⟩] })
  else
    (Except.ok (), { s with events := s.events ++ [⟨t, bs, true⟩] })

/-- `SOCKClient::shutdown` / `stream.shutdown(Shutdown::Both)`. -/
def shutdown (s : ConnState) : Except SError Unit × ConnState :=
  (Except.ok (), { s with isShutdown := true })

/-- `SOCKClient::get_avalible_methods` (lib.rs): reads `auth_nmethods`
single method octets and keeps those whose decoding the server has
enabled, in client order. -/
def getAvalibleMethods (cfg : Config) :
    Nat → ConnState → Except SError (List AuthMethods) × ConnState
  | 0, s => (Except.ok [], s)
  | n + 1, s =>
    match readExact 1 s with
    | (Except.error e, s1) => (Except.error e, s1)
    | (Except.ok mbytes, s1) =>
      match getAvalibleMethods cfg n s1 with
      | (Except.error e, s2) => (Except.error e, s2)
      | (Except.ok rest, s2) =>
        let m := AuthMethods.fromU8 (mbytes.headD 0)
        (Except.ok (if m ∈ cfg.authMethods then m :: rest else rest), s2)

/-- The body of `SOCKClient::auth`'s `UserPass` branch after the method
selection has been written (lib.rs lines 188-245): RFC 1929 exchange and
credential check. -/
def authUserpass (cfg : Config) (oracle : Oracle) (s : ConnState) :
    Except SError Unit × ConnState :=
  match readExact 2 s with
  | (Except.error e, s1) => (Except.error e, s1)
  | (Except.ok header, s1) =>
    match readExact (header.getD 1 0) s1 with
    | (Except.error e, s2) => (Except.error e, s2)
    | (Except.ok username, s2) =>
      match readExact 1 s2 with
      | (Except.error e, s3) => (Except.error e, s3)
      | (Except.ok plen, s3) =>
        match readExact (plen.headD 0) s3 with
        | (Except.error e, s4) => (Except.error e, s4)
        | (Except.ok password, s4) =>
          if oracle.utf8Ok username then
            if oracle.utf8Ok password then
              let user : User := ⟨username, password⟩
              if user ∈ cfg.users then
                writeAll .AuthReply [1, ResponseCode.Success.code] s4
              else
                match writeAll .AuthReply [1, ResponseCode.Failure.code] s4 with
                | (Except.error e, s5) => (Except.error e, s5)
                | (Except.ok _, s5) => shutdown s5
            else (Except.error (SError.Utf8 "invalid utf-8 sequence"), s4)
          else (Except.error (SError.Utf8 "invalid utf-8 sequence"), s4)

/-- `SOCKClient::auth` (lib.rs): read the offered methods, write the
method selection, then run the selected sub-negotiation. -/
def auth (cfg : Config) (oracle : Oracle) (nmethods : Nat) (s : ConnState) :
    Except SError Unit × ConnState :=
  match getAvalibleMethods cfg nmethods s with
  | (Except.error e, s1) => (Except.error e, s1)
  | (Except.ok methods, s1) =>
    if AuthMethods.UserPass ∈ methods then
      match writeAll .MethodSelection [SOCKS_VERSION, AuthMethods.UserPass.code] s1 with
      | (Except.error e, s2) => (Except.error e, s2)
      | (Except.ok _, s2) => authUserpass cfg oracle s2
    else if AuthMethods.NoAuth ∈ methods then
      writeAll .MethodSelection [SOCKS_VERSION, AuthMethods.NoAuth.code] s1
    else
      match writeAll .MethodSelection [SOCKS_VERSION, AuthMethods.NoMethods.code] s1 with
      | (Except.error e, s2) => (Except.error e, s2)
      | (Except.ok _, s2) =>
        match shutdown s2 with
        | (_, s3) => (Except.error (SError.Socks5 ResponseCode.Failure), s3)

/-- `SOCKSReq` (lib.rs). -/
structure SOCKSReq where
  version : Nat
  command : SockCommand
  addrType : AddrType
  addr : List Nat
  port : Nat
deriving DecidableEq

/-- The `let addr: Result<Vec<u8>, Error> = match addr_type { ... }` step
of `SOCKSReq::from_stream` (lib.rs): read DST.ADDR for the given ATYP. -/
def readAddr (addrType : AddrType) (s : ConnState) :
    Except SError (List Nat) × ConnState :=
  match addrType with
  | AddrType.Domain =>
    match readExact 1 s with
    | (Except.error e, s1) => (Except.error e, s1)
    | (Except.ok dlen, s1) => readExact (dlen.headD 0) s1
  | AddrType.V4 => readExact 4 s
  | AddrType.V6 => readExact 16 s

/-- `SOCKSReq::from_stream` (lib.rs): a bad request version shuts the
stream down but parsing continues; a bad command or address type shuts
the stream down and errors; the port is read big-endian. -/
def fromStream (s : ConnState) : Except SError SOCKSReq × ConnState :=
  match readExact 4 s with
  | (Except.error e, s1) => (Except.error e, s1)
  | (Except.ok packet, s1) =>
    let s2 := if packet.getD 0 0 ≠ SOCKS_VERSION then (shutdown s1).2 else s1
    match SockCommand.fromNat (packet.getD 1 0) with
    | none =>
      (Except.error (SError.Socks5 ResponseCode.CommandNotSupported), (shutdown s2).2)
    | some command =>
      match AddrType.tryFrom (packet.getD 3 0) with
      | none =>
        (Except.error (SError.Socks5 ResponseCode.AddrTypeNotSupported), (shutdown s2).2)
      | some addrType =>
        match readAddr addrType s2 with
        | (Except.error e, s3) => (Except.error e, s3)
        | (Except.ok addr, s3) =>
          match readExact 2 s3 with
          | (Except.error e, s4) => (Except.error e, s4)
          | (Except.ok port, s4) =>
            (Except.ok ⟨packet.getD 0 0, command, addrType, addr,
              (port.getD 0 0) * 256 + port.getD 1 0⟩, s4)

/-- The hardcoded success reply of `SOCKClient::handle_client`
(lib.rs line 293). -/
def connectReply : List Nat :=
  [SOCKS_VERSION, ResponseCode.Success.code, RESERVED, 1, 127, 0, 0, 1, 0, 0]

/-- `SOCKClient::handle_client` (lib.rs): parse the request; on
`Connect`, resolve, connect upstream, write the success reply and enter
the relay (result `true`); the `Bind` and `UdpAssosiate` arms do
nothing. -/
def handleClient (e : Endian) (oracle : Oracle) (s : ConnState) :
    Except SError Bool × ConnState :=
  match fromStream s with
  | (Except.error err, s1) => (Except.error err, s1)
  | (Except.ok req, s1) =>
    match req.command with
    | SockCommand.Connect =>
      match Address.toSocketAddrs e oracle.resolveDomain req.addrType req.addr req.port with
      | Except.error msg => (Except.error (SError.Io msg), s1)
      | Except.ok sockAddr =>
        match oracle.connect sockAddr with
        | Except.error msg => (Except.error (SError.Io msg), s1)
        | Except.ok _ =>
          match writeAll .SuccessReply connectReply s1 with
          | (Except.error err, s2) => (Except.error err, s2)
          | (Except.ok _, s2) => (Except.ok true, s2)
    | SockCommand.Bind => (Except.ok false, s1)
    | SockCommand.UdpAssosiate => (Except.ok false, s1)

/-- `SOCKClient::init` (lib.rs): read the greeting header; a non-5
version shuts down and returns Ok; otherwise authenticate then handle
the request.  The boolean result records whether the session reached the
relay phase. -/
def init (e : Endian) (cfg : Config) (oracle : Oracle) (s : ConnState) :
    Except SError Bool × ConnState :=
  match readExact 2 s with
  | (Except.error err, s1) => (Except.error err, s1)
  | (Except.ok header, s1) =>
    if header.getD 0 0 ≠ SOCKS_VERSION then
      match shutdown s1 with
      | (_, s2) => (Except.ok false, s2)
    else
      match auth cfg oracle (header.getD 1 0) s1 with
      | (Except.error err, s2) => (Except.error err, s2)
      | (Except.ok _, s2) => handleClient e oracle s2

/-- One spawned connection of `Merino::serve` (lib.rs lines 76-100): run
`init`; on error, classify the formatted error, attempt the two-byte
error reply `[5, code]`, and shut down.  Returns whether the relay phase
was reached together with the write events of the whole session. -/
def session (e : Endian) (cfg : Config) (oracle : Oracle) (input : List Nat) :
    Bool × List WriteEvent :=
  match init e cfg oracle ⟨input, [], false⟩ with
  | (Except.ok relay, s1) => (relay, s1.events)
  | (Except.error err, s1) =>
    let response := classify (SError.display err)
    let s2 := (writeAll .ErrorReply [5, response.code] s1).2
    let s3 := (shutdown s2).2
    (false, s3.events)

/-- Is a write event one of the SOCKS5-level error replies: a `0xFF`
method selection, a non-zero RFC 1929 status, or a reply written by the
error handler of `Merino::serve`? -/
def isErrorReply (ev : WriteEvent) : Bool :=
  match ev.tag with
  | .MethodSelection => ev.bytes.getD 1 0 == 0xFF
  | .AuthReply => ev.bytes.getD 1 0 != 0
  | .SuccessReply => false
  | .ErrorReply => true

/-- How many error replies of a session were actually delivered to the
client. -/
def errorReplyCount (evs : List WriteEvent) : Nat :=
  (evs.filter fun ev => ev.delivered && isErrorReply ev).length

/-- The write events whose bytes actually reached the client. -/
def deliveredEvents (evs : List WriteEvent) : List WriteEvent :=
  evs.filter fun ev => ev.delivered

/-- Modelled from the spec: the full RFC 1928 success reply
`VER REP RSV ATYP BND.ADDR BND.PORT` encoding the local endpoint bound
to the upstream socket, which §4.A of the spec says the server encodes
on success.  Used to compare the claimed reply shape against the bytes
the source actually writes. -/
def rfc1928SuccessReply : SocketAddr → List Nat
  | .v4 octets port => [5, 0, 0, 1] ++ octets ++ [port / 256, port % 256]
  | .v6 groups port =>
    [5, 0, 0, 4] ++ (groups.map fun g => [g / 256, g % 256]).flatten ++
      [port / 256, port % 256]

/-- A concrete host environment for the closed test theorems: every byte
sequence is valid UTF-8, the upstream connect succeeds, domain
resolution finds no addresses. -/
def testOracle : Oracle :=
  ⟨fun _ => true, fun _ => Except.ok (), fun _ _ => Except.error "no addresses"⟩

/-- A server with NoAuth enabled and no users. -/
def noAuthCfg : Config := ⟨[], [AuthMethods.NoAuth]⟩

/-- The methods `get_avalible_methods` keeps for a list of offered
octets: decode each octet and keep it when the server has it enabled,
in client order. -/
def availableMethods (server : List AuthMethods) : List Nat → List AuthMethods
  | [] => []
  | b :: tl =>
    if AuthMethods.fromU8 b ∈ server then
      AuthMethods.fromU8 b :: availableMethods server tl
    else availableMethods server tl

/-! ## Generic facts about the stream primitives -/

lemma readExact_events (n : Nat) (s : ConnState) :
    ((readExact n s).2).events = s.events ∧
    ((readExact n s).2).isShutdown = s.isShutdown := by
  unfold readExact
  split
  · exact ⟨rfl, rfl⟩
  · split <;> exact ⟨rfl, rfl⟩

lemma readExact_append (a b : List Nat) (evs : List WriteEvent) :
    readExact a.length ⟨a ++ b, evs, false⟩ = (Except.ok a, ⟨b, evs, false⟩) := by
  simp [readExact, List.take_left, List.drop_left]

lemma readExact_cons (x : Nat) (l : List Nat) (evs : List WriteEvent) :
    readExact 1 ⟨x :: l, evs, false⟩ = (Except.ok [x], ⟨l, evs, false⟩) := by
  simp [readExact]

lemma readExact_cons2 (x y : Nat) (l : List Nat) (evs : List WriteEvent) :
    readExact 2 ⟨x :: y :: l, evs, false⟩ = (Except.ok [x, y], ⟨l, evs, false⟩) := by
  simp [readExact]

lemma writeAll_open (t : Tag) (bs : List Nat) (s : ConnState)
    (h : s.isShutdown = false) :
    writeAll t bs s = (Except.ok (), { s with events := s.events ++ [⟨t, bs, true⟩] }) := by
  simp [writeAll, h]

lemma writeAll_events (t : Tag) (bs : List Nat) (s : ConnState) :
    ∃ d, ((writeAll t bs s).2).events = s.events ++ [⟨t, bs, d⟩] := by
  unfold writeAll
  split <;> exact ⟨_, rfl⟩

lemma getAvalibleMethods_append (cfg : Config) (offered rest : List Nat)
    (evs : List WriteEvent) :
    getAvalibleMethods cfg offered.length ⟨offered ++ rest, evs, false⟩ =
      (Except.ok (availableMethods cfg.authMethods offered), ⟨rest, evs, false⟩) := by
  induction offered with
  | nil => simp [getAvalibleMethods, availableMethods]
  | cons b tl ih =>
    simp [getAvalibleMethods, readExact_cons, ih, availableMethods]

lemma mem_availableMethods (m : AuthMethods) (server : List AuthMethods)
    (offered : List Nat) :
    m ∈ availableMethods server offered ↔
      m ∈ offered.map AuthMethods.fromU8 ∧ m ∈ server := by
  induction offered with
  | nil => simp [availableMethods]
  | cons b tl ih =>
    by_cases hb : AuthMethods.fromU8 b ∈ server
    · simp only [availableMethods, if_pos hb, List.map_cons, List.mem_cons, ih]
      constructor
      · rintro (rfl | ⟨h1, h2⟩)
        · exact ⟨Or.inl rfl, hb⟩
        · exact ⟨Or.inr h1, h2⟩
      · rintro ⟨rfl | h1, h2⟩
        · exact Or.inl rfl
        · exact Or.inr ⟨h1, h2⟩
    · simp only [availableMethods, if_neg hb, List.map_cons, List.mem_cons, ih]
      constructor
      · rintro ⟨h1, h2⟩
        exact ⟨Or.inr h1, h2⟩
      · rintro ⟨rfl | h1, h2⟩
        · exact absurd h2 hb
        · exact ⟨h1, h2⟩

lemma authUserpass_reject (cfg : Config) (oracle : Oracle)
    (uname pwd rest : List Nat) (evs : List WriteEvent)
    (hu : oracle.utf8Ok uname = true) (hp : oracle.utf8Ok pwd = true)
    (hmem : (⟨uname, pwd⟩ : User) ∉ cfg.users) :
    authUserpass cfg oracle
        ⟨1 :: uname.length :: (uname ++ pwd.length :: (pwd ++ rest)), evs, false⟩ =
      (Except.ok (), ⟨rest, evs ++ [⟨Tag.AuthReply, [1, 1], true⟩], true⟩) := by
  simp [authUserpass, readExact_cons2, readExact_append, readExact_cons,
    writeAll, shutdown, hu, hp, hmem, ResponseCode.code]

lemma authUserpass_events_extend (cfg : Config) (oracle : Oracle) (s : ConnState) :
    ∃ app, ((authUserpass cfg oracle s).2).events = s.events ++ app := by
  unfold authUserpass
  split
  case _ e s1 heq =>
    exact ⟨[], by rw [← (readExact_events 2 s).1, heq]; simp⟩
  case _ header s1 heq =>
    have h1 : s1.events = s.events := by
      rw [← (readExact_events 2 s).1, heq]
    split
    case _ e s2 heq2 =>
      exact ⟨[], by rw [← h1, ← (readExact_events _ s1).1, heq2]; simp⟩
    case _ username s2 heq2 =>
      have h2 : s2.events = s.events := by
        rw [← h1, ← (readExact_events _ s1).1, heq2]
      split
      case _ e s3 heq3 =>
        exact ⟨[], by rw [← h2, ← (readExact_events _ s2).1, heq3]; simp⟩
      case _ plen s3 heq3 =>
        have h3 : s3.events = s.events := by
          rw [← h2, ← (readExact_events _ s2).1, heq3]
        split
        case _ e s4 heq4 =>
          exact ⟨[], by rw [← h3, ← (readExact_events _ s3).1, heq4]; simp⟩
        case _ password s4 heq4 =>
          have h4 : s4.events = s.events := by
            rw [← h3, ← (readExact_events _ s3).1, heq4]
          by_cases hvu : oracle.utf8Ok username = true
          · by_cases hvp : oracle.utf8Ok password = true
            · by_cases hm : (⟨username, password⟩ : User) ∈ cfg.users
              · obtain ⟨d, hd⟩ :=
                  writeAll_events Tag.AuthReply [1, ResponseCode.Success.code] s4
                refine ⟨[⟨Tag.AuthReply, [1, ResponseCode.Success.code], d⟩], ?_⟩
                simp only [hvu, hvp, if_true, if_pos hm]
                rw [hd, h4]
              · obtain ⟨d, hd⟩ :=
                  writeAll_events Tag.AuthReply [1, ResponseCode.Failure.code] s4
                refine ⟨[⟨Tag.AuthReply, [1, ResponseCode.Failure.code], d⟩], ?_⟩
                simp only [hvu, hvp, if_true, if_neg hm]
                rcases hw : writeAll Tag.AuthReply [1, ResponseCode.Failure.code] s4
                  with ⟨r, s5⟩
                rw [hw] at hd
                cases r <;> simp [shutdown] <;> simp at hd <;> rw [hd, h4]
            · refine ⟨[], ?_⟩
              simp [hvu, hvp, h4]
          · refine ⟨[], ?_⟩
            simp [hvu, h4]

lemma writeAll_closed (t : Tag) (bs : List Nat) (s : ConnState)
    (h : s.isShutdown = true) :
    writeAll t bs s = (Except.error (SError.Io "broken pipe"),
      { s with events := s.events ++ [⟨t, bs, false⟩] }) := by
  simp [writeAll, h]

lemma getAvalibleMethods_events (cfg : Config) (n : Nat) (s : ConnState) :
    ((getAvalibleMethods cfg n s).2).events = s.events ∧
    ((getAvalibleMethods cfg n s).2).isShutdown = s.isShutdown := by
  induction n generalizing s with
  | zero => exact ⟨rfl, rfl⟩
  | succ n ih =>
    unfold getAvalibleMethods
    split
    case _ e s1 heq =>
      have h1 := readExact_events 1 s
      rw [heq] at h1
      exact h1
    case _ mbytes s1 heq =>
      have h1 := readExact_events 1 s
      rw [heq] at h1
      split
      case _ e s2 heq2 =>
        have h2 := ih s1
        rw [heq2] at h2
        exact ⟨h2.1.trans h1.1, h2.2.trans h1.2⟩
      case _ rest s2 heq2 =>
        have h2 := ih s1
        rw [heq2] at h2
        exact ⟨h2.1.trans h1.1, h2.2.trans h1.2⟩

lemma readAddr_events (t : AddrType) (s : ConnState) :
    ((readAddr t s).2).events = s.events ∧
    ((readAddr t s).2).isShutdown = s.isShutdown := by
  cases t
  case V4 => exact readExact_events 4 s
  case V6 => exact readExact_events 16 s
  case Domain =>
    rcases heq : readExact 1 s with ⟨r, s1⟩
    have h1 := readExact_events 1 s
    rw [heq] at h1
    cases r with
    | error e =>
      simp only [readAddr, heq]
      exact h1
    | ok dlen =>
      have h2 := readExact_events (dlen.headD 0) s1
      simp only [readAddr, heq]
      exact ⟨h2.1.trans h1.1, h2.2.trans h1.2⟩

lemma authUserpass_shape (cfg : Config) (oracle : Oracle) (s : ConnState)
    (h : s.isShutdown = false) :
    (∃ err s1, authUserpass cfg oracle s = (Except.error err, s1) ∧
       s1.events = s.events ∧ s1.isShutdown = false) ∨
    (∃ s1, authUserpass cfg oracle s = (Except.ok (), s1) ∧
       s1.events = s.events ++ [⟨Tag.AuthReply, [1, 0], true⟩] ∧
       s1.isShutdown = false) ∨
    (∃ s1, authUserpass cfg oracle s = (Except.ok (), s1) ∧
       s1.events = s.events ++ [⟨Tag.AuthReply, [1, 1], true⟩] ∧
       s1.isShutdown = true) := by
  unfold authUserpass
  split
  case _ err s1 heq =>
    have h1 := readExact_events 2 s
    rw [heq] at h1
    exact Or.inl ⟨err, s1, rfl, h1.1, h1.2.trans h⟩
  case _ header s1 heq =>
    have h1 := readExact_events 2 s
    rw [heq] at h1
    split
    case _ err s2 heq2 =>
      have h2 := readExact_events (header.getD 1 0) s1
      rw [heq2] at h2
      exact Or.inl ⟨err, s2, rfl, h2.1.trans h1.1, (h2.2.trans h1.2).trans h⟩
    case _ username s2 heq2 =>
      have h2 := readExact_events (header.getD 1 0) s1
      rw [heq2] at h2
      split
      case _ err s3 heq3 =>
        have h3 := readExact_events 1 s2
        rw [heq3] at h3
        exact Or.inl ⟨err, s3, rfl, (h3.1.trans h2.1).trans h1.1,
          ((h3.2.trans h2.2).trans h1.2).trans h⟩
      case _ plen s3 heq3 =>
        have h3 := readExact_events 1 s2
        rw [heq3] at h3
        split
        case _ err s4 heq4 =>
          have h4 := readExact_events (plen.headD 0) s3
          rw [heq4] at h4
          exact Or.inl ⟨err, s4, rfl,
            ((h4.1.trans h3.1).trans h2.1).trans h1.1,
            (((h4.2.trans h3.2).trans h2.2).trans h1.2).trans h⟩
        case _ password s4 heq4 =>
          have h4 := readExact_events (plen.headD 0) s3
          rw [heq4] at h4
          have hev4 : s4.events = s.events :=
            ((h4.1.trans h3.1).trans h2.1).trans h1.1
          have hsh4 : s4.isShutdown = false :=
            (((h4.2.trans h3.2).trans h2.2).trans h1.2).trans h
          by_cases hvu : oracle.utf8Ok username = true
          · by_cases hvp : oracle.utf8Ok password = true
            · by_cases hm : (⟨username, password⟩ : User) ∈ cfg.users
              · simp only [hvu, hvp, if_true, if_pos hm,
                  writeAll_open _ _ _ hsh4]
                refine Or.inr (Or.inl ⟨_, rfl, ?_, by simp [hsh4]⟩)
                simp [hev4, ResponseCode.code]
              · simp only [hvu, hvp, if_true, if_neg hm,
                  writeAll_open _ _ _ hsh4, shutdown]
                refine Or.inr (Or.inr ⟨_, rfl, ?_, by simp⟩)
                simp [hev4, ResponseCode.code]
            · refine Or.inl ⟨SError.Utf8 "invalid utf-8 sequence", s4, ?_, hev4, hsh4⟩
              simp [hvu, hvp]
          · refine Or.inl ⟨SError.Utf8 "invalid utf-8 sequence", s4, ?_, hev4, hsh4⟩
            simp [hvu]

lemma auth_shape (cfg : Config) (oracle : Oracle) (n : Nat) (s : ConnState)
    (h : s.isShutdown = false) :
    (∃ err s1, auth cfg oracle n s = (Except.error err, s1) ∧
       s1.events = s.events ∧ s1.isShutdown = false) ∨
    (∃ err s1, auth cfg oracle n s = (Except.error err, s1) ∧
       s1.events = s.events ++ [⟨Tag.MethodSelection, [5, 2], true⟩] ∧
       s1.isShutdown = false) ∨
    (∃ s1, auth cfg oracle n s = (Except.ok (), s1) ∧
       s1.events = s.events ++ [⟨Tag.MethodSelection, [5, 2], true⟩,
         ⟨Tag.AuthReply, [1, 0], true⟩] ∧ s1.isShutdown = false) ∨
    (∃ s1, auth cfg oracle n s = (Except.ok (), s1) ∧
       s1.events = s.events ++ [⟨Tag.MethodSelection, [5, 2], true⟩,
         ⟨Tag.AuthReply, [1, 1], true⟩] ∧ s1.isShutdown = true) ∨
    (∃ s1, auth cfg oracle n s = (Except.ok (), s1) ∧
       s1.events = s.events ++ [⟨Tag.MethodSelection, [5, 0], true⟩] ∧
       s1.isShutdown = false) ∨
    (∃ s1, auth cfg oracle n s =
        (Except.error (SError.Socks5 ResponseCode.Failure), s1) ∧
       s1.events = s.events ++ [⟨Tag.MethodSelection, [5, 255], true⟩] ∧
       s1.isShutdown = true) := by
  unfold auth
  split
  case _ err s1 heq =>
    have h1 := getAvalibleMethods_events cfg n s
    rw [heq] at h1
    exact Or.inl ⟨err, s1, rfl, h1.1, h1.2.trans h⟩
  case _ methods s1 heq =>
    have h1 := getAvalibleMethods_events cfg n s
    rw [heq] at h1
    have hsh1 : s1.isShutdown = false := h1.2.trans h
    have hev1 : s1.events = s.events := h1.1
    by_cases hup : AuthMethods.UserPass ∈ methods
    · simp only [hup, if_true, writeAll_open _ _ _ hsh1]
      rcases authUserpass_shape cfg oracle
          { s1 with events := s1.events ++
              [⟨Tag.MethodSelection, [SOCKS_VERSION, AuthMethods.UserPass.code], true⟩] }
          (by simp [hsh1]) with
        ⟨err, s2, heq2, hev, hsh⟩ | ⟨s2, heq2, hev, hsh⟩ | ⟨s2, heq2, hev, hsh⟩
      · rw [heq2]
        refine Or.inr (Or.inl ⟨err, s2, rfl, ?_, hsh⟩)
        simp only [hev]
        simp [hev1, AuthMethods.code, SOCKS_VERSION]
      · rw [heq2]
        refine Or.inr (Or.inr (Or.inl ⟨s2, rfl, ?_, hsh⟩))
        simp only [hev]
        simp [hev1, AuthMethods.code, SOCKS_VERSION]
      · rw [heq2]
        refine Or.inr (Or.inr (Or.inr (Or.inl ⟨s2, rfl, ?_, hsh⟩)))
        simp only [hev]
        simp [hev1, AuthMethods.code, SOCKS_VERSION]
    · by_cases hna : AuthMethods.NoAuth ∈ methods
      · simp only [hup, hna, if_true, if_false, writeAll_open _ _ _ hsh1]
        refine Or.inr (Or.inr (Or.inr (Or.inr (Or.inl ⟨_, rfl, ?_, by simp [hsh1]⟩))))
        simp [hev1, AuthMethods.code, SOCKS_VERSION]
      · simp only [hup, hna, if_false, writeAll_open _ _ _ hsh1, shutdown]
        refine Or.inr (Or.inr (Or.inr (Or.inr (Or.inr ⟨_, rfl, ?_, by simp⟩))))
        simp [hev1, AuthMethods.code, SOCKS_VERSION]

lemma readAddr_closed (t : AddrType) (s : ConnState) (h : s.isShutdown = true) :
    readAddr t s = (Except.error (SError.Io "read from closed stream"), s) := by
  cases t <;> simp [readAddr, readExact, h]

lemma fromStream_shape (s : ConnState) (h : s.isShutdown = false) :
    (∃ req s1, fromStream s = (Except.ok req, s1) ∧
       s1.events = s.events ∧ s1.isShutdown = false) ∨
    (∃ err s1, fromStream s = (Except.error err, s1) ∧ s1.events = s.events) := by
  unfold fromStream
  split
  case _ err s1 heq =>
    have h1 := readExact_events 4 s
    rw [heq] at h1
    exact Or.inr ⟨err, s1, rfl, h1.1⟩
  case _ packet s1 heq =>
    have h1 := readExact_events 4 s
    rw [heq] at h1
    have hsh1 : s1.isShutdown = false := h1.2.trans h
    have hev1 : s1.events = s.events := h1.1
    by_cases hv : packet.getD 0 0 ≠ SOCKS_VERSION
    · simp only [if_pos hv, shutdown]
      split
      case _ => exact Or.inr ⟨_, _, rfl, by simp [shutdown, hev1]⟩
      case _ command hcmd =>
        split
        case _ => exact Or.inr ⟨_, _, rfl, by simp [shutdown, hev1]⟩
        case _ addrType haty =>
          rw [readAddr_closed addrType _ (by simp)]
          exact Or.inr ⟨_, _, rfl, by simp [hev1]⟩
    · simp only [if_neg hv]
      split
      case _ => exact Or.inr ⟨_, _, rfl, by simp [shutdown, hev1]⟩
      case _ command hcmd =>
        split
        case _ => exact Or.inr ⟨_, _, rfl, by simp [shutdown, hev1]⟩
        case _ addrType haty =>
          split
          case _ err s3 heq3 =>
            have h3 := readAddr_events addrType s1
            rw [heq3] at h3
            exact Or.inr ⟨err, s3, rfl, h3.1.trans hev1⟩
          case _ addr s3 heq3 =>
            have h3 := readAddr_events addrType s1
            rw [heq3] at h3
            split
            case _ err s4 heq4 =>
              have h4 := readExact_events 2 s3
              rw [heq4] at h4
              exact Or.inr ⟨err, s4, rfl, (h4.1.trans h3.1).trans hev1⟩
            case _ port s4 heq4 =>
              have h4 := readExact_events 2 s3
              rw [heq4] at h4
              exact Or.inl ⟨_, s4, rfl, (h4.1.trans h3.1).trans hev1,
                (h4.2.trans h3.2).trans hsh1⟩

lemma fromStream_closed (s : ConnState) (h : s.isShutdown = true) :
    fromStream s = (Except.error (SError.Io "read from closed stream"), s) := by
  simp [fromStream, readExact, h]

lemma handleClient_closed (e : Endian) (oracle : Oracle) (s : ConnState)
    (h : s.isShutdown = true) :
    handleClient e oracle s =
      (Except.error (SError.Io "read from closed stream"), s) := by
  simp [handleClient, fromStream_closed s h]

lemma handleClient_shape (e : Endian) (oracle : Oracle) (s : ConnState)
    (h : s.isShutdown = false) :
    (∃ s1, handleClient e oracle s = (Except.ok true, s1) ∧
       s1.events = s.events ++ [⟨Tag.SuccessReply, connectReply, true⟩] ∧
       s1.isShutdown = false) ∨
    (∃ s1, handleClient e oracle s = (Except.ok false, s1) ∧
       s1.events = s.events ∧ s1.isShutdown = false) ∨
    (∃ err s1, handleClient e oracle s = (Except.error err, s1) ∧
       s1.events = s.events) := by
  unfold handleClient
  rcases fromStream_shape s h with ⟨req, s1, heq, hev, hsh⟩ | ⟨err, s1, heq, hev⟩
  · simp only [heq]
    cases hcom : req.command with
    | Connect =>
      cases hres : Address.toSocketAddrs e oracle.resolveDomain
          req.addrType req.addr req.port with
      | error msg =>
        refine Or.inr (Or.inr ⟨SError.Io msg, s1, ?_, hev⟩)
        simp [hcom, hres]
      | ok sockAddr =>
        cases hconn : oracle.connect sockAddr with
        | error msg =>
          refine Or.inr (Or.inr ⟨SError.Io msg, s1, ?_, hev⟩)
          simp [hcom, hres, hconn]
        | ok u =>
          refine Or.inl ⟨{ s1 with events :=
              s1.events ++ [⟨Tag.SuccessReply, connectReply, true⟩] }, ?_, ?_, ?_⟩
          · simp [hcom, hres, hconn, writeAll_open _ _ _ hsh]
          · simp [hev]
          · simp [hsh]
    | Bind =>
      refine Or.inr (Or.inl ⟨s1, ?_, hev, hsh⟩)
      simp [hcom]
    | UdpAssosiate =>
      refine Or.inr (Or.inl ⟨s1, ?_, hev, hsh⟩)
      simp [hcom]
  · simp only [heq]
    exact Or.inr (Or.inr ⟨err, s1, rfl, hev⟩)

/-- Every SuccessReply event of a trace carries the hardcoded reply
bytes of `handle_client`. -/
def goodEvents (evs : List WriteEvent) : Prop :=
  ∀ ev ∈ evs, ev.tag = Tag.SuccessReply → ev.bytes = connectReply

lemma errorReplyCount_append (a b : List WriteEvent) :
    errorReplyCount (a ++ b) = errorReplyCount a + errorReplyCount b := by
  simp [errorReplyCount, List.filter_append]

lemma errorReplyCount_er_true (bs : List Nat) :
    errorReplyCount [⟨Tag.ErrorReply, bs, true⟩] = 1 := by
  simp [errorReplyCount, isErrorReply]

lemma errorReplyCount_undelivered (t : Tag) (bs : List Nat) :
    errorReplyCount [⟨t, bs, false⟩] = 0 := by
  simp [errorReplyCount]

lemma init_shape (e : Endian) (cfg : Config) (oracle : Oracle) (input : List Nat) :
    (∃ b s1, init e cfg oracle ⟨input, [], false⟩ = (Except.ok b, s1) ∧
       errorReplyCount s1.events = 0 ∧ goodEvents s1.events) ∨
    (∃ err s1, init e cfg oracle ⟨input, [], false⟩ = (Except.error err, s1) ∧
       goodEvents s1.events ∧
       (errorReplyCount s1.events = 0 ∨
         (errorReplyCount s1.events = 1 ∧ s1.isShutdown = true))) := by
  unfold init
  split
  case _ err s1 heq =>
    have h1 := readExact_events 2 ⟨input, [], false⟩
    rw [heq] at h1
    have hev1 : s1.events = [] := h1.1
    refine Or.inr ⟨err, s1, rfl, ?_, Or.inl ?_⟩ <;>
      simp [hev1, goodEvents, errorReplyCount]
  case _ header s1 heq =>
    have h1 := readExact_events 2 ⟨input, [], false⟩
    rw [heq] at h1
    have hev1 : s1.events = [] := h1.1
    have hsh1 : s1.isShutdown = false := h1.2
    split
    · refine Or.inl ⟨false, { s1 with isShutdown := true }, by simp [shutdown], ?_, ?_⟩ <;>
        simp [hev1, goodEvents, errorReplyCount]
    · rcases auth_shape cfg oracle (header.getD 1 0) s1 hsh1 with
        ⟨err, s2, heq2, hev, hsh⟩ | ⟨err, s2, heq2, hev, hsh⟩ |
        ⟨s2, heq2, hev, hsh⟩ | ⟨s2, heq2, hev, hsh⟩ |
        ⟨s2, heq2, hev, hsh⟩ | ⟨s2, heq2, hev, hsh⟩
      · simp only [heq2]
        refine Or.inr ⟨err, s2, rfl, ?_, Or.inl ?_⟩
        · rw [hev, hev1]; simp [goodEvents]
        · rw [hev, hev1]; decide
      · simp only [heq2]
        refine Or.inr ⟨err, s2, rfl, ?_, Or.inl ?_⟩
        · rw [hev, hev1]; simp [goodEvents]
        · rw [hev, hev1]; decide
      · simp only [heq2]
        rcases handleClient_shape e oracle s2 hsh with
          ⟨s3, heq3, hev3, hsh3⟩ | ⟨s3, heq3, hev3, hsh3⟩ | ⟨err3, s3, heq3, hev3⟩
        · rw [heq3]
          refine Or.inl ⟨true, s3, rfl, ?_, ?_⟩
          · rw [hev3, hev, hev1]; decide
          · rw [hev3, hev, hev1]; simp [goodEvents]
        · rw [heq3]
          refine Or.inl ⟨false, s3, rfl, ?_, ?_⟩
          · rw [hev3, hev, hev1]; decide
          · rw [hev3, hev, hev1]; simp [goodEvents]
        · rw [heq3]
          refine Or.inr ⟨err3, s3, rfl, ?_, Or.inl ?_⟩
          · rw [hev3, hev, hev1]; simp [goodEvents]
          · rw [hev3, hev, hev1]; decide
      · simp only [heq2]
        rw [handleClient_closed e oracle s2 hsh]
        refine Or.inr ⟨_, s2, rfl, ?_, Or.inr ⟨?_, hsh⟩⟩
        · rw [hev, hev1]; simp [goodEvents]
        · rw [hev, hev1]; decide
      · simp only [heq2]
        rcases handleClient_shape e oracle s2 hsh with
          ⟨s3, heq3, hev3, hsh3⟩ | ⟨s3, heq3, hev3, hsh3⟩ | ⟨err3, s3, heq3, hev3⟩
        · rw [heq3]
          refine Or.inl ⟨true, s3, rfl, ?_, ?_⟩
          · rw [hev3, hev, hev1]; decide
          · rw [hev3, hev, hev1]; simp [goodEvents]
        · rw [heq3]
          refine Or.inl ⟨false, s3, rfl, ?_, ?_⟩
          · rw [hev3, hev, hev1]; decide
          · rw [hev3, hev, hev1]; simp [goodEvents]
        · rw [heq3]
          refine Or.inr ⟨err3, s3, rfl, ?_, Or.inl ?_⟩
          · rw [hev3, hev, hev1]; simp [goodEvents]
          · rw [hev3, hev, hev1]; decide
      · simp only [heq2]
        refine Or.inr ⟨_, s2, rfl, ?_, Or.inr ⟨?_, hsh⟩⟩
        · rw [hev, hev1]; simp [goodEvents]
        · rw [hev, hev1]; decide

/-! ## Claims -/

/-- Claim C1: for every formatted connect-failure text, `Merino::serve`
selects the reply code in this priority: HostUnreachable when the text
contains the host diagnostic, else NetworkUnreachable when it contains
the network diagnostic, else TtlExpired when it contains the TTL
diagnostic, else Failure; and the classifier never yields
ConnectionRefused for any input. -/
theorem c1_classifier_priority (t : String) :
    classify t ≠ ResponseCode.ConnectionRefused ∧
    (containsSub t "Host" = true → classify t = ResponseCode.HostUnreachable) ∧
    (containsSub t "Host" = false → containsSub t "Network" = true →
      classify t = ResponseCode.NetworkUnreachable) ∧
    (containsSub t "Host" = false → containsSub t "Network" = false →
      containsSub t "ttl" = true → classify t = ResponseCode.TtlExpired) ∧
    (containsSub t "Host" = false → containsSub t "Network" = false →
      containsSub t "ttl" = false → classify t = ResponseCode.Failure) := by
  refine ⟨?_, fun h1 => ?_, fun h1 h2 => ?_, fun h1 h2 h3 => ?_, fun h1 h2 h3 => ?_⟩
  · unfold classify
    split
    · simp
    · split
      · simp
      · split <;> simp
  · simp [classify, h1]
  · simp [classify, h1, h2]
  · simp [classify, h1, h2, h3]
  · simp [classify, h1, h2, h3]

/-- Witness for C1 at a concrete connect-failure text. -/
theorem c1_classifier_priority_witness :
    containsSub "Io Error: No route to Host" "Host" = true ∧
    classify "Io Error: No route to Host" = ResponseCode.HostUnreachable :=
  ⟨by decide, (c1_classifier_priority "Io Error: No route to Host").2.1 (by decide)⟩

/-- Claim C2 (code bug): after NoAuth authentication, a well-formed BIND
request (CMD = 0x02) produces no reply at all — the `Bind` arm of
`handle_client` is a no-op, so the session's only write is the method
selection, `[0x05, 0x07]` is never emitted, and the stream is never shut
down. -/
theorem c2_bind_emits_no_reply :
    session Endian.little noAuthCfg testOracle
        ([5, 1, 0] ++ [5, 2, 0, 1, 127, 0, 0, 1, 0, 80]) =
      (false, [⟨Tag.MethodSelection, [5, 0], true⟩]) := by decide

/-- Claim C3 (code bug): the source decodes the method octet 0xFF to
NoAuth, not to NoMethods as the spec prescribes. -/
theorem c3_decode_ff_yields_noauth :
    AuthMethods.fromU8 0xFF = AuthMethods.NoAuth ∧
    AuthMethods.fromU8 0xFF ≠ AuthMethods.NoMethods := by decide

/-- Claim C4 (code bug): on a little-endian host, resolving the V6
address with wire octets 2001:0db8::1 composes each 16-bit group with
`u16::from_ne_bytes`, so the single resolved socket address carries the
pairwise-swapped octets rather than the wire octets in network order. -/
theorem c4_v6_native_endian_swaps_octets :
    Address.toSocketAddrs Endian.little (fun _ _ => Except.error "") AddrType.V6
        [0x20, 0x01, 0x0d, 0xb8, 0, 0, 0, 0, 0, 0, 0, 0, 0, 0, 0, 1] 80 =
      Except.ok [SocketAddr.v6 [0x0120, 0xb80d, 0, 0, 0, 0, 0, 0x0100] 80] ∧
    (SocketAddr.v6 [0x0120, 0xb80d, 0, 0, 0, 0, 0, 0x0100] 80).addrOctets =
      [0x01, 0x20, 0xb8, 0x0d, 0, 0, 0, 0, 0, 0, 0, 0, 0, 0, 1, 0] ∧
    (SocketAddr.v6 [0x0120, 0xb80d, 0, 0, 0, 0, 0, 0x0100] 80).addrOctets ≠
      [0x20, 0x01, 0x0d, 0xb8, 0, 0, 0, 0, 0, 0, 0, 0, 0, 0, 0, 1] :=
  ⟨rfl, by decide, by decide⟩

/-- Claim C6 (code bug): after NoAuth authentication, a request with
ATYP = 0x02 does not produce the reply `[0x05, 0x08]`: `from_stream`
shuts the stream down and returns the AddrTypeNotSupported error, the
string classifier in `serve` maps its formatted text to Failure, and the
attempted `[0x05, 0x01]` write fails on the already-shut-down stream. -/
theorem c6_bad_atyp_reply_is_failure_undelivered :
    session Endian.little noAuthCfg testOracle ([5, 1, 0] ++ [5, 1, 0, 2]) =
      (false, [⟨Tag.MethodSelection, [5, 0], true⟩,
               ⟨Tag.ErrorReply, [5, 1], false⟩]) ∧
    classify (SError.display (SError.Socks5 ResponseCode.AddrTypeNotSupported)) =
      ResponseCode.Failure := by decide

/-- Counterexample to claim C7: a successful CONNECT writes the fixed
bytes `[5, 0, 0, 1, 127, 0, 0, 1, 0, 0]` regardless of the upstream
socket's local endpoint, so for a session whose upstream socket is bound
at 10.0.0.1:5555 the written BND.ADDR/BND.PORT differ from the RFC 1928
encoding of that endpoint. -/
theorem c7_counterexample :
    session Endian.little noAuthCfg testOracle
        ([5, 1, 0] ++ [5, 1, 0, 1, 127, 0, 0, 1, 0, 80]) =
      (true, [⟨Tag.MethodSelection, [5, 0], true⟩,
              ⟨Tag.SuccessReply, [5, 0, 0, 1, 127, 0, 0, 1, 0, 0], true⟩]) ∧
    rfc1928SuccessReply (SocketAddr.v4 [10, 0, 0, 1] 5555) ≠
      [5, 0, 0, 1, 127, 0, 0, 1, 0, 0] := by decide

/-- Counterexample to claim C9, refuting both of its refinements.
First, the exactly-one part: after NoAuth authentication, a request with
an invalid command octet (0x09) neither reaches the relay nor delivers
any error reply, yet bytes (the method selection) were already
delivered — `from_stream` shuts the stream down before `serve` attempts
the error reply.  Second, the no-bytes exception: a session torn down
before any method-selection reply (truncated greeting `[5]`) does emit
bytes — `serve`'s handler delivers the error reply `[5, 1]` on the
still-open stream. -/
theorem c9_counterexample :
    ((session Endian.little noAuthCfg testOracle
        ([5, 1, 0] ++ [5, 9, 0, 1, 127, 0, 0, 1, 0, 80])).1 = false ∧
      errorReplyCount (session Endian.little noAuthCfg testOracle
        ([5, 1, 0] ++ [5, 9, 0, 1, 127, 0, 0, 1, 0, 80])).2 = 0 ∧
      deliveredEvents (session Endian.little noAuthCfg testOracle
        ([5, 1, 0] ++ [5, 9, 0, 1, 127, 0, 0, 1, 0, 80])).2 ≠ []) ∧
    session Endian.little noAuthCfg testOracle [5] =
      (false, [⟨Tag.ErrorReply, [5, 1], true⟩]) := by decide

/-- Claim C5: a session that selected UserPass and is presented a
(username, password) pair that is not in the credential table emits the
method selection `[5, 2]`, then the RFC 1929 failure reply `[1, 1]`, and
shuts the connection down; the error reply later attempted by `serve`
fails on the shut-down stream and is not delivered. -/
theorem c5_bad_credentials (e : Endian) (users : List User)
    (server : List AuthMethods) (oracle : Oracle) (uname pwd rest : List Nat)
    (hsrv : AuthMethods.UserPass ∈ server)
    (hul : uname.length ≤ 255) (hpl : pwd.length ≤ 255)
    (hu : oracle.utf8Ok uname = true) (hp : oracle.utf8Ok pwd = true)
    (hmem : (⟨uname, pwd⟩ : User) ∉ users) :
    session e ⟨users, server⟩ oracle
        (5 :: 1 :: 2 :: 1 :: uname.length :: (uname ++ pwd.length :: (pwd ++ rest))) =
      (false, [⟨Tag.MethodSelection, [5, 2], true⟩,
               ⟨Tag.AuthReply, [1, 1], true⟩,
               ⟨Tag.ErrorReply, [5, 1], false⟩]) := by
  have hc : classify (SError.display (SError.Io "read from closed stream")) =
      ResponseCode.Failure := by decide
  have hga := getAvalibleMethods_append ⟨users, server⟩ [2]
      (1 :: uname.length :: (uname ++ pwd.length :: (pwd ++ rest))) []
  simp [availableMethods, AuthMethods.fromU8, hsrv] at hga
  simp only [session, init, readExact_cons2, List.getD_cons_zero,
    List.getD_cons_succ, SOCKS_VERSION, ne_eq, not_true_eq_false, if_false,
    auth]
  rw [hga]
  simp only [List.mem_cons, List.not_mem_nil, or_false, if_true, true_or,
    AuthMethods.code, writeAll, Bool.false_eq_true, if_false, List.nil_append]
  rw [authUserpass_reject ⟨users, server⟩ oracle uname pwd rest
    [⟨Tag.MethodSelection, [5, 2], true⟩] hu hp hmem]
  simp only [handleClient, fromStream, readExact, if_true]
  rw [hc]
  simp [writeAll, shutdown, ResponseCode.code]

/-- Witness for C5: the pair (c, d) is rejected against the table
holding only (a, b). -/
theorem c5_bad_credentials_witness :
    AuthMethods.UserPass ∈ [AuthMethods.UserPass] ∧
    (⟨[0x63], [0x64]⟩ : User) ∉ [(⟨[0x61], [0x62]⟩ : User)] ∧
    session Endian.little ⟨[⟨[0x61], [0x62]⟩], [AuthMethods.UserPass]⟩ testOracle
        (5 :: 1 :: 2 :: 1 :: [0x63].length :: ([0x63] ++ [0x64].length :: ([0x64] ++ []))) =
      (false, [⟨Tag.MethodSelection, [5, 2], true⟩,
               ⟨Tag.AuthReply, [1, 1], true⟩,
               ⟨Tag.ErrorReply, [5, 1], false⟩]) :=
  ⟨by decide, by decide,
    c5_bad_credentials Endian.little [⟨[0x61], [0x62]⟩] [AuthMethods.UserPass]
      testOracle [0x63] [0x64] [] (by decide) (by decide) (by decide)
      (by decide) (by decide) (by decide)⟩

/-- Claim C8: method selection is deterministic and preference ordered.
With `methods` the offered octets the server has enabled: when both
sides have UserPass the first write is the selection `[5, 2]` (even if
both also have NoAuth); else when both sides have NoAuth the server
writes `[5, 0]` and succeeds; else it writes `[5, 0xFF]`, shuts down and
fails the session. -/
theorem c8_method_selection (server : List AuthMethods) (users : List User)
    (oracle : Oracle) (offered rest : List Nat) :
    ((AuthMethods.UserPass ∈ offered.map AuthMethods.fromU8 ∧
        AuthMethods.UserPass ∈ server) →
      ((auth ⟨users, server⟩ oracle offered.length
          ⟨offered ++ rest, [], false⟩).2).events.head? =
        some ⟨Tag.MethodSelection, [5, 2], true⟩) ∧
    (¬(AuthMethods.UserPass ∈ offered.map AuthMethods.fromU8 ∧
        AuthMethods.UserPass ∈ server) →
      (AuthMethods.NoAuth ∈ offered.map AuthMethods.fromU8 ∧
        AuthMethods.NoAuth ∈ server) →
      auth ⟨users, server⟩ oracle offered.length ⟨offered ++ rest, [], false⟩ =
        (Except.ok (), ⟨rest, [⟨Tag.MethodSelection, [5, 0], true⟩], false⟩)) ∧
    (¬(AuthMethods.UserPass ∈ offered.map AuthMethods.fromU8 ∧
        AuthMethods.UserPass ∈ server) →
      ¬(AuthMethods.NoAuth ∈ offered.map AuthMethods.fromU8 ∧
        AuthMethods.NoAuth ∈ server) →
      auth ⟨users, server⟩ oracle offered.length ⟨offered ++ rest, [], false⟩ =
        (Except.error (SError.Socks5 ResponseCode.Failure),
         ⟨rest, [⟨Tag.MethodSelection, [5, 255], true⟩], true⟩)) := by
  refine ⟨fun h => ?_, fun h1 h2 => ?_, fun h1 h2 => ?_⟩
  · have hup : AuthMethods.UserPass ∈ availableMethods server offered :=
      (mem_availableMethods _ _ _).2 h
    simp only [auth, getAvalibleMethods_append, hup, if_pos, AuthMethods.code,
      writeAll, Bool.false_eq_true, if_false, List.nil_append, SOCKS_VERSION]
    obtain ⟨app, happ⟩ := authUserpass_events_extend ⟨users, server⟩ oracle
      ⟨rest, [⟨Tag.MethodSelection, [5, 2], true⟩], false⟩
    rw [happ]
    simp
  · have hup : AuthMethods.UserPass ∉ availableMethods server offered :=
      fun hc => h1 ((mem_availableMethods _ _ _).1 hc)
    have hna : AuthMethods.NoAuth ∈ availableMethods server offered :=
      (mem_availableMethods _ _ _).2 h2
    simp [auth, getAvalibleMethods_append, hup, hna, AuthMethods.code,
      writeAll, SOCKS_VERSION]
  · have hup : AuthMethods.UserPass ∉ availableMethods server offered :=
      fun hc => h1 ((mem_availableMethods _ _ _).1 hc)
    have hna : AuthMethods.NoAuth ∉ availableMethods server offered :=
      fun hc => h2 ((mem_availableMethods _ _ _).1 hc)
    simp [auth, getAvalibleMethods_append, hup, hna, AuthMethods.code,
      writeAll, shutdown, SOCKS_VERSION]

/-- Witness for C8: a client offering NoAuth and UserPass against a
server enabling both gets UserPass selected. -/
theorem c8_method_selection_witness :
    (AuthMethods.UserPass ∈ ([0, 2] : List Nat).map AuthMethods.fromU8 ∧
      AuthMethods.UserPass ∈ [AuthMethods.NoAuth, AuthMethods.UserPass]) ∧
    ((auth ⟨[], [AuthMethods.NoAuth, AuthMethods.UserPass]⟩ testOracle
        ([0, 2] : List Nat).length ⟨[0, 2] ++ [], [], false⟩).2).events.head? =
      some ⟨Tag.MethodSelection, [5, 2], true⟩ :=
  ⟨by decide,
    (c8_method_selection [AuthMethods.NoAuth, AuthMethods.UserPass] [] testOracle
      [0, 2] []).1 (by decide)⟩

set_option maxRecDepth 4096 in
/-- Claim C10: decoding any octet 0x00..0xFE to an `AuthMethods` value
and re-encoding it with `code` yields the octet back; the round trip
fails for 0xFF, whose decode-then-encode yields 0x00. -/
theorem c10_code_roundtrip :
    (∀ b : Nat, b ≤ 0xFE → (AuthMethods.fromU8 b).code = b) ∧
    (AuthMethods.fromU8 0xFF).code = 0 := by
  constructor
  · decide
  · decide

/-- Witness for C10 at the octet 0x2A. -/
theorem c10_code_roundtrip_witness :
    (42 : Nat) ≤ 0xFE ∧ (AuthMethods.fromU8 42).code = 42 :=
  ⟨by decide, c10_code_roundtrip.1 42 (by decide)⟩

/-- Amended claim C9: every session, over every input, host environment
and configuration, delivers at most one error reply to the client; a
session that reaches the relay phase delivers none; and a session whose
greeting carries a version octet other than 5 terminates with no bytes
emitted at all. -/
theorem c9_at_most_one_error_reply (e : Endian) (cfg : Config) (oracle : Oracle)
    (input : List Nat) :
    errorReplyCount (session e cfg oracle input).2 ≤ 1 ∧
    ((session e cfg oracle input).1 = true →
      errorReplyCount (session e cfg oracle input).2 = 0) ∧
    (∀ v n rest, v ≠ 5 →
      session e cfg oracle (v :: n :: rest) = (false, [])) := by
  have hmain : errorReplyCount (session e cfg oracle input).2 ≤ 1 ∧
      ((session e cfg oracle input).1 = true →
        errorReplyCount (session e cfg oracle input).2 = 0) := by
    unfold session
    rcases init_shape e cfg oracle input with
      ⟨b, s1, heq, hcnt, hgood⟩ | ⟨err, s1, heq, hgood, hcase⟩
    · simp only [heq]
      exact ⟨by simp [hcnt], fun _ => hcnt⟩
    · simp only [heq]
      refine ⟨?_, fun hrel => by simp at hrel⟩
      cases hsh : s1.isShutdown
      · simp only [writeAll_open _ _ _ hsh, shutdown]
        rcases hcase with hc | ⟨hc, hsh2⟩
        · simp [errorReplyCount_append, hc, errorReplyCount_er_true]
        · simp [hsh] at hsh2
      · simp only [writeAll_closed _ _ _ hsh, shutdown]
        rcases hcase with hc | ⟨hc, _⟩ <;>
          simp [errorReplyCount_append, hc, errorReplyCount_undelivered]
  refine ⟨hmain.1, hmain.2, fun v n rest hv => ?_⟩
  simp only [session, init, readExact_cons2]
  simp [SOCKS_VERSION, hv, shutdown]

/-- Witness for the amended C9: a relay-reaching session delivers no
error reply, and a SOCKS4-style greeting (version octet 4) session emits
nothing. -/
theorem c9_at_most_one_error_reply_witness :
    (session Endian.little noAuthCfg testOracle
        ([5, 1, 0] ++ [5, 1, 0, 1, 10, 0, 0, 1, 0, 80])).1 = true ∧
    errorReplyCount (session Endian.little noAuthCfg testOracle
        ([5, 1, 0] ++ [5, 1, 0, 1, 10, 0, 0, 1, 0, 80])).2 = 0 ∧
    (4 : Nat) ≠ 5 ∧
    session Endian.little noAuthCfg testOracle (4 :: 1 :: []) = (false, []) :=
  ⟨by decide,
    (c9_at_most_one_error_reply Endian.little noAuthCfg testOracle
      ([5, 1, 0] ++ [5, 1, 0, 1, 10, 0, 0, 1, 0, 80])).2.1 (by decide),
    by decide,
    (c9_at_most_one_error_reply Endian.little noAuthCfg testOracle
      ([5, 1, 0] ++ [5, 1, 0, 1, 10, 0, 0, 1, 0, 80])).2.2 4 1 [] (by decide)⟩

/-- Amended claim C7: in every session, every success reply written to
the client carries the fixed bytes `[5, 0, 0, 1, 127, 0, 0, 1, 0, 0]` —
REP = Success with BND.ADDR and BND.PORT hardcoded to 127.0.0.1:0,
independent of the upstream socket's local endpoint. -/
theorem c7_success_reply_hardcoded (e : Endian) (cfg : Config) (oracle : Oracle)
    (input : List Nat) :
    (∀ ev ∈ (session e cfg oracle input).2, ev.tag = Tag.SuccessReply →
       ev.bytes = connectReply) ∧
    connectReply = [5, 0, 0, 1, 127, 0, 0, 1, 0, 0] ∧
    connectReply.getD 1 9 = ResponseCode.Success.code := by
  refine ⟨?_, by decide, by decide⟩
  unfold session
  rcases init_shape e cfg oracle input with
    ⟨b, s1, heq, hcnt, hgood⟩ | ⟨err, s1, heq, hgood, hcase⟩
  · simp only [heq]
    exact hgood
  · simp only [heq]
    intro ev hmem htag
    obtain ⟨d, hd⟩ := writeAll_events Tag.ErrorReply
      [5, (classify (SError.display err)).code] s1
    simp only [shutdown] at hmem
    rw [hd] at hmem
    rcases List.mem_append.1 hmem with hin | hin
    · exact hgood ev hin htag
    · rw [List.mem_singleton.1 hin] at htag
      exact Tag.noConfusion htag

/-- Witness for the amended C7 at a concrete relay-reaching session. -/
theorem c7_success_reply_hardcoded_witness :
    (⟨Tag.SuccessReply, connectReply, true⟩ : WriteEvent) ∈
      (session Endian.little noAuthCfg testOracle
        ([5, 1, 0] ++ [5, 1, 0, 1, 1, 2, 3, 4, 0, 9])).2 ∧
    (⟨Tag.SuccessReply, connectReply, true⟩ : WriteEvent).bytes = connectReply :=
  ⟨by decide,
    (c7_success_reply_hardcoded Endian.little noAuthCfg testOracle
      ([5, 1, 0] ++ [5, 1, 0, 1, 1, 2, 3, 4, 0, 9])).1
      ⟨Tag.SuccessReply, connectReply, true⟩ (by decide) rfl⟩

end Merino
